import Mathlib

/-!
Verification of the mirai authentication and token-lifecycle subsystem.

This file gives a shallow embedding, in Lean, of the authentication code of
the repository and proves properties of it:

* `MiraiGitHubAuthenticationProvider` (GitHub OAuth provider),
* `MiraiAuthenticationProvider` (Mirai identity provider),
* `GlobalAuthService` (account label parsing),
* `JiraApiService.setupTokenRefreshInterceptor` (single-flight token refresh),
* `FigmaOAuthService` / `FigmaApiService` (debug logging of tokens).

Pure computations are translated to Lean functions; stateful code becomes
explicit record passing; promises become an explicit settle-once value;
network and library calls external to the repository (token decode, refresh
network result) are parameters of the embedding.
-/

namespace Mirai

/-- JavaScript string truthiness for an optional query parameter:
a value is truthy when it is present and not the empty string. -/
def strTruthy : Option String → Bool
  | none => false
  | some s => s ≠ ""

/-- JavaScript string truthiness for a plain string value. -/
def strTruthyS (s : String) : Bool := s ≠ ""

/-- Whether the character list `p` is a leading segment of `s`. -/
def startsWithSeq : List Char → List Char → Bool
  | _, [] => true
  | [], _ :: _ => false
  | c :: cs, p :: ps => c = p && startsWithSeq cs ps

/-- Whether `pat` occurs contiguously inside `s` (JavaScript `includes`). -/
def hasSubSeq : List Char → List Char → Bool
  | [], pat => pat.isEmpty
  | c :: rest, pat => startsWithSeq (c :: rest) pat || hasSubSeq rest pat

/-- JavaScript `s.replace(pat, "")` on strings: removes the first
occurrence of `pat` from `s`, if any. -/
def replaceFirst : List Char → List Char → List Char
  | [], _ => []
  | c :: rest, pat =>
    if startsWithSeq (c :: rest) pat then (c :: rest).drop pat.length
    else c :: replaceFirst rest pat

/-- One pass of JavaScript `split(",")`: `acc` holds the current segment in
reverse. -/
def splitCommaAux : List Char → List Char → List String
  | [], acc => [String.mk acc.reverse]
  | c :: rest, acc =>
    if c = ',' then String.mk acc.reverse :: splitCommaAux rest []
    else splitCommaAux rest (c :: acc)

/-- JavaScript `s.split(",")`. -/
def splitComma (s : String) : List String := splitCommaAux s.data []

/-- The regex class `\d`: a decimal digit character. -/
def isDigitChar (c : Char) : Bool := 48 ≤ c.toNat && c.toNat ≤ 57

/-- The regex class `\s`, restricted to the ASCII whitespace characters. -/
def isSpaceChar (c : Char) : Bool :=
  c.toNat = 32 || c.toNat = 9 || c.toNat = 10 || c.toNat = 13 || c.toNat = 11 || c.toNat = 12

/-- ASCII lowercasing on code points, modelling a case-insensitive regex. -/
def lowerN (n : Nat) : Nat := if 65 ≤ n ∧ n ≤ 90 then n + 32 else n

/-- Case-insensitive comparison of an input character with a lowercase
target character. -/
def lowEq (c : Char) (t : Char) : Bool := lowerN c.toNat = t.toNat

/-- Fuelled accumulator loop producing the decimal digit characters of `n`
in front of `acc`; `fuel > n` always suffices. -/
def natDigitsFuel : Nat → Nat → List Char → List Char
  | 0, _, acc => acc
  | fuel + 1, n, acc =>
    if n < 10 then Nat.digitChar n :: acc
    else natDigitsFuel fuel (n / 10) (Nat.digitChar (n % 10) :: acc)

/-- Decimal digit characters of a natural number, most significant first:
the embedding of JavaScript number-to-string conversion inside a template
literal. -/
def natDigits (n : Nat) : List Char := natDigitsFuel (n + 1) n []

/-- Decimal rendering of a natural number as a string. -/
def natToString (n : Nat) : String := String.mk (natDigits n)

/-- Numeric value of a decimal digit character. -/
def digitVal (c : Char) : Nat := c.toNat - 48

/-- JavaScript `parseInt(ds, 10)` on a string of decimal digits. -/
def parseDec (ds : List Char) : Nat := ds.foldl (fun a c => a * 10 + digitVal c) 0

/-! ## Shared data model

An authentication session as produced by either provider
(`vscode.AuthenticationSession` / the `GitHubSession` interface of
part_005): id, access token, account label and id, scope list. -/

structure Session where
  id : String
  accessToken : String
  accountLabel : String
  accountId : String
  scopes : List String
deriving DecidableEq

/-- Payload of an `onDidChangeSessions` event
(`vscode.AuthenticationProviderAuthenticationSessionsChangeEvent`). -/
structure ChangeEvent where
  added : List Session
  removed : List Session
  changed : List Session
deriving DecidableEq

/-- The query parameters a callback URI can carry, as read by
`new URLSearchParams(uri.query).get(...)`; `none` models an absent
parameter. -/
structure CallbackQuery where
  token : Option String
  callbackState : Option String
  username : Option String
  scope : Option String
  error : Option String
deriving DecidableEq

/-! ## GitHub provider (part_005, MiraiGitHubAuthenticationProvider)

The pending authorization request is the ad hoc `_pendingAuth` record
`(resolve, reject, timeout, state, scopes)`; the promise handed to the
caller of `createSession` is modelled explicitly as a settle-once cell in
a list indexed by creation order, so that settling an already settled
promise is visibly a no-op (JavaScript promise semantics). -/

namespace GitHub

/-- Rejection reasons produced by part_005. -/
inductive Err
  | timedOut          -- the 5 minute timer fired
  | providerError (msg : String)   -- callback carried an error parameter
  | invalidResponse   -- missing token or callbackState, or mismatched state value
  | decodeFailed      -- token payload failed to decode
deriving DecidableEq

/-- The settle-once promise cell backing one `createSession` call. -/
inductive PromiseCell
  | unsettled
  | resolvedWith (s : Session)
  | rejectedWith (e : Err)
deriving DecidableEq

/-- The `_pendingAuth` record of part_005 lines 64 to 66, with the
resolve and reject closures replaced by the index of the promise cell
they settle. -/
structure Pending where
  promiseId : Nat
  expectedState : String
  scopes : List String
deriving DecidableEq

/-- Instance state of the GitHub provider: the `_pendingAuth` slot, the
stored OAuth sessions (`globalState` under STORAGE_KEY), and the promise
cells created so far. -/
structure St where
  pendingAuth : Option Pending
  storedSessions : List Session
  promises : List PromiseCell
deriving DecidableEq

/-- Settle the promise cell at index `i`; a cell that is already settled
stays as it is (a resolve or reject on a settled JavaScript promise is a
no-op). -/
def settleList : List PromiseCell → Nat → PromiseCell → List PromiseCell
  | [], _, _ => []
  | p :: rest, 0, a => (match p with | .unsettled => a | q => q) :: rest
  | p :: rest, i + 1, a => p :: settleList rest i a

/-- The timer delay armed by `createSession` (part_005 lines 60 to 62):
`5 * 60 * 1000` milliseconds. -/
def flowTimeoutMs : Nat := 5 * 60 * 1000

/-- The registration step of `createSession` (part_005 lines 59 to 66):
create a fresh promise, arm the 5 minute timer, and overwrite
`_pendingAuth` with the new record. The returned values are the new
state, the index of the new promise cell, and the armed timer delay.
Note that an existing `_pendingAuth` record is overwritten without being
settled. -/
def startFlow (st : St) (nonce : String) (scopes : List String) :
    St × Nat × Option Nat :=
  let pid := st.promises.length
  ({ st with promises := st.promises ++ [.unsettled],
             pendingAuth := some ⟨pid, nonce, scopes⟩ },
   pid, some flowTimeoutMs)

/-- The timer callback of part_005 lines 60 to 62: reject the promise
with the timed-out error. It does not clear or inspect `_pendingAuth`. -/
def fireTimeout (st : St) (pid : Nat) : St :=
  { st with promises := settleList st.promises pid (.rejectedWith .timedOut) }

/-- The session storage step of `handleCallback` (part_005 lines 159 to
172): drop any stored session with the same id, append the new session,
and fire a change event listing it under `added`. -/
def storeSession (stored : List Session) (s : Session) :
    List Session × ChangeEvent :=
  (stored.filter (fun x => x.id ≠ s.id) ++ [s], ⟨[s], [], []⟩)

/-- The guard of part_005 line 128, in positive form: the JavaScript
condition `!token || !state || state !== pendingAuth.state` fails exactly
when the token is truthy, the state parameter is truthy, and the state
parameter equals the expected state. -/
def callbackOk (q : CallbackQuery) (expected : String) : Bool :=
  strTruthy q.token && strTruthy q.callbackState &&
    (q.callbackState == some expected)

/-- `handleCallback` of part_005 lines 105 to 175. The `decodeToken`
parameter stands for the external library pipeline
`JSON.parse(Buffer.from(_, "base64url"))` applied to the stripped token,
returning the contained `(githubAccessToken, githubId)` pair, or `none`
when it throws. The function returns the new provider state together
with the fired change event, if any. -/
def handleCallback (decodeToken : String → Option (String × String))
    (st : St) (q : CallbackQuery) : St × Option ChangeEvent :=
  match st.pendingAuth with
  | none => (st, none)       -- console.warn and return
  | some pa =>
    -- clearTimeout(pendingAuth.timeout); delete _pendingAuth
    let st1 : St := { st with pendingAuth := none }
    if strTruthy q.error then
      let cell : PromiseCell := .rejectedWith (.providerError (q.error.getD ""))
      ({ st1 with promises := settleList st1.promises pa.promiseId cell }, none)
    else
      if callbackOk q pa.expectedState then
        match decodeToken (String.mk
            (replaceFirst (q.token.getD "").data "mirai_github_".data)) with
        | none =>
          ({ st1 with promises :=
              settleList st1.promises pa.promiseId (.rejectedWith .decodeFailed) },
           none)
        | some (ghTok, ghId) =>
          let session : Session :=
            { id := ghId
              accessToken := ghTok
              accountLabel := if strTruthy q.username then q.username.getD "" else "GitHub User"
              accountId := ghId
              scopes := if strTruthy q.scope then splitComma (q.scope.getD "") else pa.scopes }
          let stored := storeSession st1.storedSessions session
          ({ st1 with storedSessions := stored.1,
                      promises :=
                        settleList st1.promises pa.promiseId (.resolvedWith session) },
           some stored.2)
      else
        ({ st1 with promises :=
            settleList st1.promises pa.promiseId (.rejectedWith .invalidResponse) },
         none)

/-- `getSessions` of part_005 lines 23 to 39: stored OAuth sessions plus
the PAT session when present; with a truthy scope list, keep the
sessions whose scopes include every requested scope, except that the
session with id `"pat"` always passes. -/
def getSessions (stored : List Session) (patSession : Option Session)
    (scopes : Option (List String)) : List Session :=
  let allSessions := match patSession with
    | some p => stored ++ [p]
    | none => stored
  match scopes with
  | none => allSessions
  | some sc =>
    if sc.isEmpty then allSessions
    else allSessions.filter (fun s => s.id == "pat" || sc.all (fun x => s.scopes.contains x))

end GitHub

/-! ## Mirai identity provider (part_006, MiraiAuthenticationProvider)

`createSession` opens the browser, registers `_pendingAuth` and awaits a
promise that `handleCallback` settles with the temporary token; only
after a resolution does `createSession` perform the network exchange
`POST /api/vscode/auth` and store the resulting session. -/

namespace MiraiId

/-- Rejection reasons produced by part_006. -/
inductive Err
  | noToken          -- callback without a truthy token parameter
  | stateMismatch    -- state parameter differs from the expected state
  | cancelled        -- user pressed Cancel
deriving DecidableEq

/-- The settle-once promise cell backing one `createSession` call; a
resolution carries the temporary token string. -/
inductive PromiseCell
  | unsettled
  | resolvedWith (tempToken : String)
  | rejectedWith (e : Err)
deriving DecidableEq

/-- Settle the promise cell at index `i`; settled cells stay as they
are. -/
def settleList : List PromiseCell → Nat → PromiseCell → List PromiseCell
  | [], _, _ => []
  | p :: rest, 0, a => (match p with | .unsettled => a | q => q) :: rest
  | p :: rest, i + 1, a => p :: settleList rest i a

/-- The `_pendingAuth` record of part_006 lines 94 to 99: resolve and
reject closures (modelled by the promise index), a `timeout` field that
is always null, and the expected state. -/
structure Pending where
  promiseId : Nat
  expectedState : String
deriving DecidableEq

/-- Instance state of the Mirai provider: `_pendingAuth`, the in-memory
`_sessions` array (mirrored to globalState by `storeSessions`), and the
promise cells created so far. -/
structure St where
  pendingAuth : Option Pending
  sessions : List Session
  promises : List PromiseCell
deriving DecidableEq

/-- The registration step of `createSession` (part_006 lines 86 to 100):
create a fresh promise and overwrite `_pendingAuth`. The timeout of the
original design is commented out in the source — no timer is armed, which
the returned `Option Nat` records as `none`. An existing `_pendingAuth`
record is overwritten without being settled. -/
def startFlow (st : St) (nonce : String) : St × Nat × Option Nat :=
  let pid := st.promises.length
  ({ st with promises := st.promises ++ [.unsettled],
             pendingAuth := some ⟨pid, nonce⟩ },
   pid, none)

/-- `handleCallback` of part_006 lines 301 to 335: without a pending
request, return; otherwise clear the slot, then reject on a missing
token, reject on a state mismatch, and resolve with the temporary token
otherwise. No session is created here and no event is fired. -/
def handleCallback (st : St) (q : CallbackQuery) : St :=
  match st.pendingAuth with
  | none => st               -- console.error and return
  | some pa =>
    let st1 : St := { st with pendingAuth := none }
    if strTruthy q.token = false then
      { st1 with promises :=
          settleList st1.promises pa.promiseId (.rejectedWith .noToken) }
    else if q.callbackState ≠ some pa.expectedState then
      { st1 with promises :=
          settleList st1.promises pa.promiseId (.rejectedWith .stateMismatch) }
    else
      { st1 with promises :=
          settleList st1.promises pa.promiseId (.resolvedWith (q.token.getD "")) }

/-- Whether the continuation of `createSession` after the await reaches
the exchange call `POST /api/vscode/auth` (part_006 line 119): it does so
exactly when the callback promise was resolved. -/
def exchangeInvoked : PromiseCell → Bool
  | .resolvedWith _ => true
  | _ => false

/-- The user record inside the exchange response of part_006. -/
structure User where
  id : String
  name : String
  credits : Nat
deriving DecidableEq

/-- The account label built by `createSession` (part_006 line 131):
the template literal of the user name and the credit count. -/
def mkAccountLabel (name : String) (credits : Nat) : String :=
  name ++ " (" ++ natToString credits ++ " credits)"

/-- The session record built by `createSession` from the exchange
response (part_006 lines 126 to 134). -/
def sessionFromExchange (u : User) (accessToken : String)
    (scopes : List String) : Session :=
  { id := u.id
    accessToken := accessToken
    accountLabel := mkAccountLabel u.name u.credits
    accountId := u.id
    scopes := scopes }

/-- The session storage step of `createSession` (part_006 lines 136 to
145): push the session unconditionally and fire a change event listing
it under `added`. -/
def storeSession (stored : List Session) (s : Session) :
    List Session × ChangeEvent :=
  (stored ++ [s], ⟨[s], [], []⟩)

/-- `getSessions` of part_006 lines 48 to 51: the scope argument is
ignored and the whole `_sessions` array is returned. -/
def getSessions (sessions : List Session) (scopes : Option (List String)) :
    List Session :=
  sessions

end MiraiId

/-! ## GlobalAuthService (globalAuthService.ts)

`refreshAuthState` reads the first session and recovers the user name
via `label.split(" (")[0]` and the credits via
`extractCreditsFromLabel`, whose regex is `\((\d+)\s+credits?\)` with
the case-insensitive flag. -/

namespace GlobalAuth

/-- The first component of `label.split(" (")` (globalAuthService.ts
line 97): the characters before the first occurrence of a space followed
by an opening parenthesis. -/
def takeBeforeSpaceParen : List Char → List Char
  | [] => []
  | [c] => [c]
  | c1 :: c2 :: rest =>
    if c1 = ' ' ∧ c2 = '(' then []
    else c1 :: takeBeforeSpaceParen (c2 :: rest)

/-- The name recovered from an account label by `refreshAuthState`. -/
def nameFromLabel (label : String) : String :=
  String.mk (takeBeforeSpaceParen label.data)

/-- Match the literal word given by `pat` (lowercase) case-insensitively
at the front of the input, returning the remainder on success. -/
def matchWordCI : List Char → List Char → Option (List Char)
  | [], s => some s
  | _ :: _, [] => none
  | p :: ps, c :: cs => if lowEq c p then matchWordCI ps cs else none

/-- Attempt of the regex `\((\d+)\s+credits?\)` at the current position,
returning the captured digit characters. The greedy `\d+` and `\s+` are
realised by maximal munch, which is exact here: a shorter digit run would
be followed by a digit, which `\s` rejects, and a shorter space run would
be followed by a space, which the literal `c` rejects; after `credit` an
optional `s` must itself be followed by the closing parenthesis. -/
def matchCreditsAt (s : List Char) : Option (List Char) :=
  match s with
  | c :: rest =>
    if c = '(' then
      let ds := rest.takeWhile isDigitChar
      let r1 := rest.dropWhile isDigitChar
      if ds = [] then none
      else if r1.takeWhile isSpaceChar = [] then none
      else
        match matchWordCI "credit".data (r1.dropWhile isSpaceChar) with
        | none => none
        | some r3 =>
          match r3 with
          | ')' :: _ => some ds
          | c2 :: ')' :: _ => if lowEq c2 's' then some ds else none
          | _ => none
    else none
  | [] => none

/-- Leftmost match of the credits regex: try every position from the
left, as `String.prototype.match` does without the global flag. -/
def findCredits : List Char → Option (List Char)
  | [] => none
  | c :: rest =>
    match matchCreditsAt (c :: rest) with
    | some ds => some ds
    | none => findCredits rest

/-- `extractCreditsFromLabel` of globalAuthService.ts lines 135 to 139:
the first regex match captured as a decimal number, or 0 without a
match. -/
def extractCreditsFromLabel (label : String) : Nat :=
  match findCredits label.data with
  | some ds => parseDec ds
  | none => 0

end GlobalAuth

/-! ## Jira token refresh interceptor (part_010, JiraApiService)

The axios response interceptor installed by
`setupTokenRefreshInterceptor` (part_010 lines 854 to 948) implements a
single-flight refresh: the first caller that sees a 401 on a fresh
request sets `isRefreshing`, performs the network refresh and then
releases the `failedQueue`; later 401s while refreshing enqueue
themselves. Execution is single threaded, so the window is modelled as:
the interceptor bodies of the concurrent 401s run one after the other,
then the awaited refresh completes. -/

namespace Jira

/-- The two mirai-jira configuration values the interceptor touches;
the empty string models a cleared or absent value (both are falsy). -/
structure Config where
  oauthAccessToken : String
  oauthRefreshToken : String
deriving DecidableEq

/-- Service state: the `isRefreshing` flag and `failedQueue` array
(part_010 lines 781 to 782), the configuration store, the default
Authorization header of the axios client, and two observables: how many
network refresh calls were made and whether the re-authentication error
message was shown. -/
structure St where
  isRefreshing : Bool
  failedQueue : List Nat
  config : Config
  clientAuthToken : String
  refreshNetworkCalls : Nat
  reauthPrompted : Bool
deriving DecidableEq

/-- What the interceptor does with one rejected response. -/
inductive Action
  | queued           -- pushed a completion handle onto failedQueue
  | startedRefresh   -- set isRefreshing and proceeded to refresh
  | passedThrough    -- returned Promise.reject(error) unchanged
deriving DecidableEq

/-- The synchronous part of the interceptor body (part_010 lines 860 to
885) for a response rejected with the given status, where `retryFlag` is
`originalRequest._retry`: a 401 on a fresh request either enqueues
(when a refresh is in flight) or starts the refresh; anything else is
rejected unchanged. -/
def interceptError (s : St) (callerId : Nat) (status : Nat)
    (retryFlag : Bool) : St × Action :=
  if status = 401 ∧ retryFlag = false then
    if s.isRefreshing then
      ({ s with failedQueue := s.failedQueue ++ [callerId] }, .queued)
    else
      ({ s with isRefreshing := true }, .startedRefresh)
  else (s, .passedThrough)

/-- Errors a wrapped call can surface. -/
inductive Err
  | httpError (status : Nat)     -- the original axios error, passed through
  | noRefreshToken               -- thrown before any network call
  | refreshFailed (msg : String) -- the network refresh rejected
deriving DecidableEq

/-- The outcome one wrapped caller observes. -/
inductive CallOutcome
  | retriedWith (token : String) -- its request was retried once with this bearer token
  | failed (e : Err)             -- its promise was rejected
deriving DecidableEq

/-- Result of the awaited network refresh call
(`oauthService.refreshToken`). -/
inductive RefreshNet
  | ok (newAccess newRefresh : String)
  | err (msg : String)
deriving DecidableEq

/-- Completion of the refresh the `startedRefresh` caller performs
(part_010 lines 887 to 945). Without a truthy refresh token the code
throws before any network call; the catch block rejects every queued
handle, clears both tokens, and shows the re-authentication message. On
a successful network refresh both tokens are updated, the client header
is replaced, the queue is resolved in order (each queued caller then
retries with the freshly stored token), and the original request is
retried. On a failed network refresh the queue is rejected with the same
error, the tokens are cleared, and the message is shown. `isRefreshing`
is reset in the finally block. Returns the new state, the outcomes of
the queued callers in release order, and the outcome of the refreshing
caller. -/
def completeRefresh (s : St) (net : RefreshNet) :
    St × List (Nat × CallOutcome) × CallOutcome :=
  if strTruthyS s.config.oauthRefreshToken = false then
    ({ s with failedQueue := [],
              config := ⟨"", ""⟩,
              reauthPrompted := true,
              isRefreshing := false },
     s.failedQueue.map (fun i => (i, CallOutcome.failed .noRefreshToken)),
     .failed .noRefreshToken)
  else
    match net with
    | .ok newAccess newRefresh =>
      ({ s with failedQueue := [],
                config := ⟨newAccess, newRefresh⟩,
                clientAuthToken := newAccess,
                refreshNetworkCalls := s.refreshNetworkCalls + 1,
                isRefreshing := false },
       s.failedQueue.map (fun i => (i, CallOutcome.retriedWith newAccess)),
       .retriedWith newAccess)
    | .err m =>
      ({ s with failedQueue := [],
                config := ⟨"", ""⟩,
                refreshNetworkCalls := s.refreshNetworkCalls + 1,
                reauthPrompted := true,
                isRefreshing := false },
       s.failedQueue.map (fun i => (i, CallOutcome.failed (.refreshFailed m))),
       .failed (.refreshFailed m))

/-- State after the interceptor body of one 401 on a fresh request. -/
def step401 (s : St) (i : Nat) : St := (interceptError s i 401 false).1

/-- One refresh window: the interceptor bodies of `callers` (each a 401
on a fresh request) run in arrival order, then the single refresh
completes with `net`. Returns the final state and the outcome of every
caller, the refreshing caller first and the queued callers in release
order. -/
def refreshWindow (s0 : St) (callers : List Nat) (net : RefreshNet) :
    St × List (Nat × CallOutcome) :=
  let s1 := callers.foldl step401 s0
  let r := completeRefresh s1 net
  (r.1,
   (match callers with | [] => [] | c :: _ => [(c, r.2.2)]) ++ r.2.1)

/-- The journey of one wrapped call that fails authorization twice
(claim C4): the original 401 starts the refresh, the refresh completes
with `net`, the retried request (whose `_retry` flag is now set) is
rejected with a second 401, and the interceptor passes that rejection
through. Returns the final state, the outcome of the first round, and
the action taken on the second 401. -/
def secondFailureRun (s0 : St) (net : RefreshNet) :
    St × CallOutcome × Action :=
  let r1 := interceptError s0 0 401 false
  let r2 := completeRefresh r1.1 net
  let r3 := interceptError r2.1 0 401 true
  (r3.1, r2.2.2, r3.2)

end Jira

/-! ## Figma debug logging (figmaOAuthService.ts and part_011)

The two log statements named by claim C5, modelled as the list of string
values appearing in the emitted log record. -/

namespace Figma

/-- The relevant fields of the token endpoint response body. -/
structure TokenData where
  access_token : String
  error : Option String
deriving DecidableEq

/-- The values logged by the debug statement of
`FigmaOAuthService.exchangeCodeForToken` (figmaOAuthService.ts lines 157
to 163): the truncated token under `tokenPrefix`, the length, the
`figd_` check, and the complete response object under `fullResponse`,
which serialises the raw `access_token` value. -/
def exchangeDebugLogStrings (data : TokenData) : List String :=
  [ if strTruthyS data.access_token then data.access_token.take 10 ++ "..."
    else "undefined",
    if strTruthyS data.access_token then natToString data.access_token.length
    else natToString 0,
    if startsWithSeq data.access_token.data "figd_".data then "true" else "false",
    data.access_token ]

/-- The values logged by `FigmaApiService.getRecentFiles` (part_011
lines 749 to 751): the message text and the raw `this.accessToken`. -/
def getRecentFilesLogStrings (accessToken : String) : List String :=
  ["[Figma API Debug] Checking access token:", accessToken]

end Figma

/-! ## Helper lemmas -/

lemma getD_concat_length {α : Type} (l : List α) (x d : α) :
    (l ++ [x]).getD l.length d = x := by
  simp [List.getD_append_right]

namespace GitHub

lemma settleList_concat (l : List PromiseCell) (a : PromiseCell) :
    settleList (l ++ [.unsettled]) l.length a = l ++ [a] := by
  induction l with
  | nil => rfl
  | cons p rest ih => simpa [settleList] using ih

lemma settleList_getD (l : List PromiseCell) (i : Nat) (a : PromiseCell)
    (hi : i < l.length) (hu : l.getD i .unsettled = .unsettled) :
    (settleList l i a).getD i .unsettled = a := by
  induction l generalizing i with
  | nil => simp at hi
  | cons p rest ih =>
    cases i with
    | zero =>
      simp only [List.getD_cons_zero] at hu
      simp [settleList, hu]
    | succ j =>
      simp only [List.getD_cons_succ] at hu
      simp only [List.length_cons, Nat.succ_lt_succ_iff] at hi
      simpa [settleList] using ih j hi hu

lemma settleList_getD_ne (l : List PromiseCell) (i j : Nat) (a d : PromiseCell)
    (h : j ≠ i) : (settleList l i a).getD j d = l.getD j d := by
  induction l generalizing i j with
  | nil => simp [settleList]
  | cons p rest ih =>
    cases i with
    | zero =>
      cases j with
      | zero => exact absurd rfl h
      | succ k => simp [settleList]
    | succ m =>
      cases j with
      | zero => simp [settleList]
      | succ k =>
        simpa [settleList] using ih m k (fun hk => h (by omega))

lemma settleList_length (l : List PromiseCell) (i : Nat) (a : PromiseCell) :
    (settleList l i a).length = l.length := by
  induction l generalizing i with
  | nil => rfl
  | cons p rest ih =>
    cases i with
    | zero => simp [settleList]
    | succ m => simpa [settleList] using ih m

end GitHub

namespace MiraiId

lemma settleCell_getD (l : List PromiseCell) (i : Nat) (a : PromiseCell)
    (hi : i < l.length) (hu : l.getD i .unsettled = .unsettled) :
    (settleList l i a).getD i .unsettled = a := by
  induction l generalizing i with
  | nil => simp at hi
  | cons p rest ih =>
    cases i with
    | zero =>
      simp only [List.getD_cons_zero] at hu
      simp [settleList, hu]
    | succ j =>
      simp only [List.getD_cons_succ] at hu
      simp only [List.length_cons, Nat.succ_lt_succ_iff] at hi
      simpa [settleList] using ih j hi hu

end MiraiId

namespace Jira

lemma step401_of_refreshing (s : St) (i : Nat) (h : s.isRefreshing = true) :
    step401 s i = { s with failedQueue := s.failedQueue ++ [i] } := by
  simp [step401, interceptError, h]

lemma step401_of_idle (s : St) (i : Nat) (h : s.isRefreshing = false) :
    step401 s i = { s with isRefreshing := true } := by
  simp [step401, interceptError, h]

lemma foldl_step401_of_refreshing (cs : List Nat) :
    ∀ (s : St), s.isRefreshing = true →
      cs.foldl step401 s = { s with failedQueue := s.failedQueue ++ cs } := by
  induction cs with
  | nil => intro s _; simp
  | cons i cs ih =>
    intro s h
    rw [List.foldl_cons, step401_of_refreshing s i h]
    rw [ih { s with failedQueue := s.failedQueue ++ [i] } h]
    simp

end Jira

/-! ## Claim C1: a mismatched state parameter never resolves a request -/

/-- C1. In both providers, when a pending authorization request exists
and a callback arrives whose state parameter differs from the expected
state of that request, `handleCallback` rejects the pending promise
(never resolves it, for that request or any other promise cell), leaves
the stored sessions untouched, fires no change event, and — for the
Mirai provider — the continuation of `createSession` never reaches the
token exchange; when the remaining guards pass (no provider error for
GitHub, a truthy token for Mirai), the rejection is specifically the
invalid-state error of the respective provider. -/
theorem c1_state_mismatch_never_resolves :
    (∀ (decodeToken : String → Option (String × String)) (st : GitHub.St)
        (pa : GitHub.Pending) (q : CallbackQuery),
      st.pendingAuth = some pa →
      pa.promiseId < st.promises.length →
      st.promises.getD pa.promiseId .unsettled = .unsettled →
      q.callbackState ≠ some pa.expectedState →
      (∃ e, (GitHub.handleCallback decodeToken st q).1.promises.getD pa.promiseId
          .unsettled = .rejectedWith e) ∧
      (GitHub.handleCallback decodeToken st q).1.storedSessions = st.storedSessions ∧
      (GitHub.handleCallback decodeToken st q).2 = none ∧
      (∀ j, j ≠ pa.promiseId →
        (GitHub.handleCallback decodeToken st q).1.promises.getD j .unsettled =
          st.promises.getD j .unsettled) ∧
      (strTruthy q.error = false →
        (GitHub.handleCallback decodeToken st q).1.promises.getD pa.promiseId
          .unsettled = .rejectedWith .invalidResponse)) ∧
    (∀ (st : MiraiId.St) (pa : MiraiId.Pending) (q : CallbackQuery),
      st.pendingAuth = some pa →
      pa.promiseId < st.promises.length →
      st.promises.getD pa.promiseId .unsettled = .unsettled →
      q.callbackState ≠ some pa.expectedState →
      (∃ e, (MiraiId.handleCallback st q).promises.getD pa.promiseId
          .unsettled = .rejectedWith e) ∧
      MiraiId.exchangeInvoked
        ((MiraiId.handleCallback st q).promises.getD pa.promiseId .unsettled) = false ∧
      (MiraiId.handleCallback st q).sessions = st.sessions ∧
      (strTruthy q.token = true →
        (MiraiId.handleCallback st q).promises.getD pa.promiseId .unsettled =
          .rejectedWith .stateMismatch)) := by
  constructor
  · intro decodeToken st pa q hpa hlt hcell hmis
    have hok : GitHub.callbackOk q pa.expectedState = false := by
      unfold GitHub.callbackOk
      have : (q.callbackState == some pa.expectedState) = false := by
        simpa using hmis
      simp [this]
    by_cases herr : strTruthy q.error = true
    · have heq : GitHub.handleCallback decodeToken st q =
          (⟨none, st.storedSessions,
            GitHub.settleList st.promises pa.promiseId
              (.rejectedWith (.providerError (q.error.getD "")))⟩, none) := by
        unfold GitHub.handleCallback
        rw [hpa]
        simp only [herr, if_true]
      rw [heq]
      refine ⟨⟨_, GitHub.settleList_getD _ _ _ hlt hcell⟩, rfl, rfl, ?_, ?_⟩
      · intro j hj
        exact GitHub.settleList_getD_ne _ _ _ _ _ hj
      · intro hfalse
        exact absurd (herr.symm.trans hfalse) (by decide)
    · have herr2 : strTruthy q.error = false := by simpa using herr
      have heq : GitHub.handleCallback decodeToken st q =
          (⟨none, st.storedSessions,
            GitHub.settleList st.promises pa.promiseId
              (.rejectedWith .invalidResponse)⟩, none) := by
        unfold GitHub.handleCallback
        rw [hpa]
        simp only [herr2, Bool.false_eq_true, if_false, hok]
      rw [heq]
      refine ⟨⟨_, GitHub.settleList_getD _ _ _ hlt hcell⟩, rfl, rfl, ?_, ?_⟩
      · intro j hj
        exact GitHub.settleList_getD_ne _ _ _ _ _ hj
      · intro _
        exact GitHub.settleList_getD _ _ _ hlt hcell
  · intro st pa q hpa hlt hcell hmis
    by_cases htok : strTruthy q.token = true
    · have heq : MiraiId.handleCallback st q =
          ⟨none, st.sessions,
            MiraiId.settleList st.promises pa.promiseId
              (.rejectedWith .stateMismatch)⟩ := by
        unfold MiraiId.handleCallback
        rw [hpa]
        simp only [htok, Bool.true_eq_false, if_false]
        rw [if_pos hmis]
      rw [heq]
      have hset := MiraiId.settleCell_getD st.promises pa.promiseId
        (.rejectedWith .stateMismatch) hlt hcell
      exact ⟨⟨_, hset⟩, by rw [hset]; rfl, rfl, fun _ => hset⟩
    · have htok2 : strTruthy q.token = false := by simpa using htok
      have heq : MiraiId.handleCallback st q =
          ⟨none, st.sessions,
            MiraiId.settleList st.promises pa.promiseId
              (.rejectedWith .noToken)⟩ := by
        unfold MiraiId.handleCallback
        rw [hpa]
        simp only [htok2, if_true]
      rw [heq]
      have hset := MiraiId.settleCell_getD st.promises pa.promiseId
        (.rejectedWith .noToken) hlt hcell
      refine ⟨⟨_, hset⟩, by rw [hset]; rfl, rfl, ?_⟩
      intro htrue
      exact absurd (htok2.symm.trans htrue) (by decide)

/-- C1 witness: the theorem applied to a concrete mismatched callback
for each provider. -/
theorem c1_witness :
    ((⟨some ⟨0, "good", []⟩, [], [.unsettled]⟩ : GitHub.St).pendingAuth =
        some ⟨0, "good", []⟩) ∧
    (GitHub.handleCallback (fun _ => none) ⟨some ⟨0, "good", []⟩, [], [.unsettled]⟩
        ⟨some "tok", some "evil", none, none, none⟩).1.promises.getD 0 .unsettled =
      .rejectedWith .invalidResponse ∧
    (MiraiId.handleCallback ⟨some ⟨0, "good"⟩, [], [.unsettled]⟩
        ⟨some "tok", some "evil", none, none, none⟩).promises.getD 0 .unsettled =
      .rejectedWith .stateMismatch := by
  refine ⟨rfl, ?_, ?_⟩
  · exact (c1_state_mismatch_never_resolves.1 (fun _ => none)
      ⟨some ⟨0, "good", []⟩, [], [.unsettled]⟩ ⟨0, "good", []⟩
      ⟨some "tok", some "evil", none, none, none⟩
      rfl (by decide) (by decide) (by decide)).2.2.2.2 (by decide)
  · exact (c1_state_mismatch_never_resolves.2
      ⟨some ⟨0, "good"⟩, [], [.unsettled]⟩ ⟨0, "good"⟩
      ⟨some "tok", some "evil", none, none, none⟩
      rfl (by decide) (by decide) (by decide)).2.2.2 (by decide)

/-! ## Claim C2: single-flight refresh with uniform FIFO outcomes -/

/-- C2. For a window in which a list of concurrent wrapped calls each
observe a 401 on a fresh request while the service is idle, exactly one
network refresh call is made; every caller observes the same outcome —
all retried once with the same refreshed token on success, or all
rejected with the same refresh failure — and the queued waiters are
released in arrival (first-in-first-out) order. -/
theorem c2_single_flight_fifo :
    ∀ (s0 : Jira.St) (c : Nat) (cs : List Nat) (net : Jira.RefreshNet),
      s0.isRefreshing = false →
      s0.failedQueue = [] →
      strTruthyS s0.config.oauthRefreshToken = true →
      (Jira.refreshWindow s0 (c :: cs) net).1.refreshNetworkCalls =
          s0.refreshNetworkCalls + 1 ∧
      (Jira.refreshWindow s0 (c :: cs) net).2 =
        (c :: cs).map (fun i => (i,
          match net with
          | .ok a _ => Jira.CallOutcome.retriedWith a
          | .err m => Jira.CallOutcome.failed (.refreshFailed m))) ∧
      (Jira.refreshWindow s0 (c :: cs) net).1.isRefreshing = false := by
  intro s0 c cs net h1 h2 h3
  have hfold : (c :: cs).foldl Jira.step401 s0 =
      { s0 with isRefreshing := true, failedQueue := cs } := by
    rw [List.foldl_cons, Jira.step401_of_idle s0 c h1]
    rw [Jira.foldl_step401_of_refreshing cs _ rfl]
    simp [h2]
  unfold Jira.refreshWindow
  rw [hfold]
  unfold Jira.completeRefresh
  dsimp only
  rw [if_neg (by simp [h3])]
  cases net with
  | ok a b => exact ⟨rfl, rfl, rfl⟩
  | err m => exact ⟨rfl, rfl, rfl⟩

/-- C2 witness: three concurrent 401 callers and a successful refresh;
all three observe the retried outcome with the refreshed token, in
arrival order. -/
theorem c2_witness :
    strTruthyS (⟨"T1", "R1"⟩ : Jira.Config).oauthRefreshToken = true ∧
    (Jira.refreshWindow ⟨false, [], ⟨"T1", "R1"⟩, "T1", 0, false⟩ [7, 8, 9]
        (.ok "T2" "R2")).2 =
      [(7, .retriedWith "T2"), (8, .retriedWith "T2"), (9, .retriedWith "T2")] ∧
    (Jira.refreshWindow ⟨false, [], ⟨"T1", "R1"⟩, "T1", 0, false⟩ [7, 8, 9]
        (.ok "T2" "R2")).1.refreshNetworkCalls = 1 := by
  refine ⟨by decide, ?_, ?_⟩
  · rw [(c2_single_flight_fifo ⟨false, [], ⟨"T1", "R1"⟩, "T1", 0, false⟩ 7 [8, 9]
      (.ok "T2" "R2") rfl rfl (by decide)).2.1]
    rfl
  · exact (c2_single_flight_fifo ⟨false, [], ⟨"T1", "R1"⟩, "T1", 0, false⟩ 7 [8, 9]
      (.ok "T2" "R2") rfl rfl (by decide)).1

/-! ## Claim C4: at most one refresh and one retry per wrapped call -/

/-- C4 counterexample. The claim states that when the retried call fails
authorization again after a successful refresh, the failure is surfaced
AND the affected session is removed AND the caller is signalled to
re-authenticate. In the code the second 401 (its request now carrying
the retry flag) is passed through unchanged: the stored tokens keep
their refreshed values and the re-authentication message is never
shown. -/
theorem c4_counterexample :
    (Jira.secondFailureRun ⟨false, [], ⟨"T1", "R1"⟩, "T1", 0, false⟩
        (.ok "T2" "R2")).2.2 = .passedThrough ∧
    (Jira.secondFailureRun ⟨false, [], ⟨"T1", "R1"⟩, "T1", 0, false⟩
        (.ok "T2" "R2")).2.1 = .retriedWith "T2" ∧
    (Jira.secondFailureRun ⟨false, [], ⟨"T1", "R1"⟩, "T1", 0, false⟩
        (.ok "T2" "R2")).1.config = ⟨"T2", "R2"⟩ ∧
    (Jira.secondFailureRun ⟨false, [], ⟨"T1", "R1"⟩, "T1", 0, false⟩
        (.ok "T2" "R2")).1.reauthPrompted = false := by
  decide

/-- C4 as amended: at most one refresh attempt and one retry are
performed per wrapped call, and a second authorization failure after a
successful refresh is surfaced unchanged — but the stored tokens are
kept and no re-authentication prompt is shown on that path; the tokens
are cleared and the prompt shown exactly when the refresh call itself
fails. -/
theorem c4_amended_retry_bounded :
    (∀ (s0 : Jira.St) (a b : String),
      s0.isRefreshing = false →
      s0.failedQueue = [] →
      strTruthyS s0.config.oauthRefreshToken = true →
      (Jira.secondFailureRun s0 (.ok a b)).2.1 = .retriedWith a ∧
      (Jira.secondFailureRun s0 (.ok a b)).2.2 = .passedThrough ∧
      (Jira.secondFailureRun s0 (.ok a b)).1.refreshNetworkCalls =
          s0.refreshNetworkCalls + 1 ∧
      (Jira.secondFailureRun s0 (.ok a b)).1.config = ⟨a, b⟩ ∧
      (Jira.secondFailureRun s0 (.ok a b)).1.reauthPrompted = s0.reauthPrompted ∧
      (Jira.secondFailureRun s0 (.ok a b)).1.isRefreshing = false) ∧
    (∀ (s : Jira.St) (m : String),
      strTruthyS s.config.oauthRefreshToken = true →
      (Jira.completeRefresh s (.err m)).1.config = ⟨"", ""⟩ ∧
      (Jira.completeRefresh s (.err m)).1.reauthPrompted = true) := by
  constructor
  · intro s0 a b h1 h2 h3
    unfold Jira.secondFailureRun
    rw [show (Jira.interceptError s0 0 401 false) =
        ({ s0 with isRefreshing := true }, .startedRefresh) by
      simp [Jira.interceptError, h1]]
    unfold Jira.completeRefresh
    dsimp only
    rw [if_neg (by simp [h3])]
    simp [Jira.interceptError]
  · intro s m h
    unfold Jira.completeRefresh
    rw [if_neg (by simp [h])]
    exact ⟨rfl, rfl⟩

/-- C4 witness: the amended statement at a concrete idle state with a
successful refresh. -/
theorem c4_witness :
    (⟨false, [], ⟨"T1", "R1"⟩, "T1", 0, false⟩ : Jira.St).isRefreshing = false ∧
    (Jira.secondFailureRun ⟨false, [], ⟨"T1", "R1"⟩, "T1", 0, false⟩
        (.ok "T2" "R2")).1.refreshNetworkCalls = 0 + 1 :=
  ⟨rfl,
   (c4_amended_retry_bounded.1 ⟨false, [], ⟨"T1", "R1"⟩, "T1", 0, false⟩
      "T2" "R2" rfl rfl (by decide)).2.2.1⟩

/-! ## Claim C3: a callback arriving after the timeout fired -/

/-- C3. The claim states that a valid callback arriving after the flow
timeout fired is a pure no-op. The timer callback of part_005 rejects
the promise but does not clear `_pendingAuth`, so the late callback is
processed in full: a session is created and stored, a change event is
fired, and only the final `resolve` is a silent no-op on the already
rejected promise — the caller saw a timeout error, yet the session
collection changed and an event was emitted. -/
theorem c3_late_callback_mutates_store :
    (GitHub.fireTimeout (GitHub.startFlow ⟨none, [], []⟩ "n1" []).1 0).pendingAuth =
      some ⟨0, "n1", []⟩ ∧
    (GitHub.fireTimeout (GitHub.startFlow ⟨none, [], []⟩ "n1" []).1 0).promises.getD
        0 .unsettled = .rejectedWith .timedOut ∧
    (GitHub.handleCallback (fun s => if s = "T" then some ("ghTok", "u1") else none)
        (GitHub.fireTimeout (GitHub.startFlow ⟨none, [], []⟩ "n1" []).1 0)
        ⟨some "mirai_github_T", some "n1", some "alice", some "repo", none⟩).1.storedSessions =
      [⟨"u1", "ghTok", "alice", "u1", ["repo"]⟩] ∧
    (GitHub.handleCallback (fun s => if s = "T" then some ("ghTok", "u1") else none)
        (GitHub.fireTimeout (GitHub.startFlow ⟨none, [], []⟩ "n1" []).1 0)
        ⟨some "mirai_github_T", some "n1", some "alice", some "repo", none⟩).2 =
      some ⟨[⟨"u1", "ghTok", "alice", "u1", ["repo"]⟩], [], []⟩ ∧
    (GitHub.handleCallback (fun s => if s = "T" then some ("ghTok", "u1") else none)
        (GitHub.fireTimeout (GitHub.startFlow ⟨none, [], []⟩ "n1" []).1 0)
        ⟨some "mirai_github_T", some "n1", some "alice", some "repo", none⟩).1.promises.getD
        0 .unsettled = .rejectedWith .timedOut := by
  decide

/-! ## Claim C5: token confidentiality in log output -/

/-- C5. The claim states that the full access-token value never appears
in any log output, at most a truncated prefix being allowed. The code
violates this: the debug statement of
`FigmaOAuthService.exchangeCodeForToken` logs the complete response
object (its own comment warns that this logs the full token), and
`FigmaApiService.getRecentFiles` logs `this.accessToken` raw. At a
concrete 33-character token, the untruncated token value is among the
logged strings of both statements. -/
theorem c5_full_token_logged :
    "figd_full_secret_token_0123456789" ∈
      Figma.exchangeDebugLogStrings ⟨"figd_full_secret_token_0123456789", none⟩ ∧
    "figd_full_secret_token_0123456789" ∈
      Figma.getRecentFilesLogStrings "figd_full_secret_token_0123456789" ∧
    10 < "figd_full_secret_token_0123456789".length := by
  decide

/-! ## Claim C6: the five-minute deadline on flow-starting operations -/

/-- C6 counterexample. The claim states every flow-starting operation is
bounded by an explicit 5 minute deadline. The registration step of
`MiraiAuthenticationProvider.createSession` arms no timer at all (the
timeout code is commented out in part_006), so the promise of a caller
that never receives a callback is never rejected; by contrast, the
GitHub provider does arm the 5 minute timer. -/
theorem c6_counterexample :
    (MiraiId.startFlow ⟨none, [], []⟩ "s1").2.2 = none ∧
    (MiraiId.startFlow ⟨none, [], []⟩ "s1").1.promises.getD 0 .unsettled =
      .unsettled ∧
    (GitHub.startFlow ⟨none, [], []⟩ "s1" []).2.2 = some (5 * 60 * 1000) := by
  decide

/-- C6 as amended: the GitHub provider bounds `createSession` by an
explicit 5 minute timer whose firing rejects the awaiting caller with
the timed-out error, while the Mirai provider arms no deadline and
waits indefinitely for the callback. -/
theorem c6_amended_timeout_only_github :
    (∀ (st : GitHub.St) (nonce : String) (sc : List String),
      (GitHub.startFlow st nonce sc).2.2 = some GitHub.flowTimeoutMs ∧
      GitHub.flowTimeoutMs = 5 * 60 * 1000 ∧
      (GitHub.fireTimeout (GitHub.startFlow st nonce sc).1
          (GitHub.startFlow st nonce sc).2.1).promises.getD
          (GitHub.startFlow st nonce sc).2.1 .unsettled
        = .rejectedWith .timedOut) ∧
    (∀ (st : MiraiId.St) (nonce : String),
      (MiraiId.startFlow st nonce).2.2 = none) := by
  refine ⟨fun st nonce sc => ⟨rfl, rfl, ?_⟩, fun st nonce => rfl⟩
  show (GitHub.fireTimeout _ _).promises.getD st.promises.length .unsettled = _
  unfold GitHub.fireTimeout GitHub.startFlow
  simp only []
  rw [GitHub.settleList_concat, getD_concat_length]

/-! ## Claim C7: settlement of a superseded pending request -/

/-- C7 counterexample. The claim states that starting a second flow
settles the existing pending request before replacing it. In both
providers the registration step overwrites the `_pendingAuth` slot
without settling anything: after a second `startFlow`, the promise cell
of the first flow is still unsettled while the slot already holds the
second request. -/
theorem c7_counterexample :
    (GitHub.startFlow (GitHub.startFlow ⟨none, [], []⟩ "s1" []).1 "s2" []).1.promises.getD
        0 .unsettled = .unsettled ∧
    (GitHub.startFlow (GitHub.startFlow ⟨none, [], []⟩ "s1" []).1 "s2" []).1.pendingAuth =
      some ⟨1, "s2", []⟩ ∧
    (MiraiId.startFlow (MiraiId.startFlow ⟨none, [], []⟩ "s1").1 "s2").1.promises.getD
        0 .unsettled = .unsettled := by
  decide

/-- C7 as amended: starting a second flow installs the new request as
the sole pending request but settles nothing — every promise cell
created before the call, in particular the one of the request being
displaced, is left exactly as it was. The displaced caller is therefore
rejected only by its own timer in the GitHub provider, and never in the
Mirai provider. -/
theorem c7_amended_overwrite_without_settling :
    (∀ (st : GitHub.St) (nonce : String) (sc : List String) (i : Nat)
        (d : GitHub.PromiseCell),
      (GitHub.startFlow st nonce sc).1.pendingAuth =
        some ⟨st.promises.length, nonce, sc⟩ ∧
      (i < st.promises.length →
        (GitHub.startFlow st nonce sc).1.promises.getD i d = st.promises.getD i d)) ∧
    (∀ (st : MiraiId.St) (nonce : String) (i : Nat) (d : MiraiId.PromiseCell),
      (MiraiId.startFlow st nonce).1.pendingAuth =
        some ⟨st.promises.length, nonce⟩ ∧
      (i < st.promises.length →
        (MiraiId.startFlow st nonce).1.promises.getD i d = st.promises.getD i d)) := by
  constructor
  · intro st nonce sc i d
    exact ⟨rfl, fun hi => List.getD_append _ _ d i hi⟩
  · intro st nonce i d
    exact ⟨rfl, fun hi => List.getD_append _ _ d i hi⟩

/-- C7 witness: the amended statement applied at a state holding one
unsettled promise cell. -/
theorem c7_witness :
    0 < ([GitHub.PromiseCell.unsettled] : List GitHub.PromiseCell).length ∧
    (GitHub.startFlow ⟨some ⟨0, "s1", []⟩, [], [.unsettled]⟩ "s2" []).1.promises.getD
        0 .unsettled = [GitHub.PromiseCell.unsettled].getD 0 .unsettled :=
  ⟨by decide,
   (c7_amended_overwrite_without_settling.1
      ⟨some ⟨0, "s1", []⟩, [], [.unsettled]⟩ "s2" [] 0 .unsettled).2 (by decide)⟩

/-! ## Claim C8: scope filtering in getSessions -/

/-- C8 counterexample. The claim states that for every provider a
non-empty scope list filters the stored sessions down to those whose
scopes include every requested scope (PAT excepted). The Mirai
provider ignores the scope argument entirely: a session with an empty
scope list is returned for the request `["repo"]` even though it is not
the PAT session and lacks the scope. -/
theorem c8_counterexample :
    MiraiId.getSessions [⟨"m1", "tok", "L", "m1", []⟩] (some ["repo"]) =
      [⟨"m1", "tok", "L", "m1", []⟩] ∧
    ("repo" ∉ (⟨"m1", "tok", "L", "m1", []⟩ : Session).scopes) ∧
    (⟨"m1", "tok", "L", "m1", []⟩ : Session).id ≠ "pat" := by
  refine ⟨rfl, by decide, by decide⟩

/-- C8 as amended: the GitHub provider filters as the claim states — a
session is returned for a requested scope list exactly when it is a
stored or PAT session and either the request is empty, or the session
is the PAT session (id `"pat"`), or its scopes include every requested
scope; with no scope argument all sessions are returned. The Mirai
provider ignores the scope argument and always returns every stored
session. -/
theorem c8_amended_scope_filtering :
    (∀ (stored : List Session) (pat : Option Session) (sc : List String)
        (s : Session),
      s ∈ GitHub.getSessions stored pat (some sc) ↔
        s ∈ stored ++ pat.toList ∧
          (sc = [] ∨ s.id = "pat" ∨ ∀ x ∈ sc, x ∈ s.scopes)) ∧
    (∀ (stored : List Session) (pat : Option Session),
      GitHub.getSessions stored pat none = stored ++ pat.toList) ∧
    (∀ (sessions : List Session) (sc : Option (List String)),
      MiraiId.getSessions sessions sc = sessions) := by
  refine ⟨fun stored pat sc s => ?_, fun stored pat => ?_, fun sessions sc => rfl⟩
  · have hall : (match pat with
        | some p => stored ++ [p]
        | none => stored) = stored ++ pat.toList := by
      cases pat <;> simp
    unfold GitHub.getSessions
    rcases Decidable.em (sc = []) with hsc | hsc
    · subst hsc
      simp [hall]
    · rw [hall]
      dsimp only
      rw [if_neg (by simpa [List.isEmpty_iff] using hsc)]
      rw [List.mem_filter]
      constructor
      · rintro ⟨hmem, hp⟩
        refine ⟨hmem, ?_⟩
        simp only [Bool.or_eq_true, beq_iff_eq, List.all_eq_true] at hp
        rcases hp with h | h
        · exact Or.inr (Or.inl h)
        · refine Or.inr (Or.inr fun x hx => ?_)
          have := h x hx
          simpa using this
      · rintro ⟨hmem, h | h | h⟩
        · exact absurd h hsc
        · exact ⟨hmem, by simp [h]⟩
        · refine ⟨hmem, ?_⟩
          simp only [Bool.or_eq_true, beq_iff_eq, List.all_eq_true]
          exact Or.inr fun x hx => by simpa using h x hx
  · cases pat <;> simp [GitHub.getSessions]

/-! ## Claim C9: session upsert semantics -/

/-- C9 counterexample. The claim states that storing a session for an
already stored subject replaces it and fires a `changed` event, and
that no two stored sessions share an id. Storing a session whose id is
already present in the GitHub provider does replace the old one, but
the fired event lists the session under `added` with `changed` empty;
the Mirai provider appends unconditionally, so two sessions with the
same id remain. -/
theorem c9_counterexample :
    (GitHub.storeSession [⟨"u1", "t1", "L1", "u1", []⟩] ⟨"u1", "t2", "L2", "u1", []⟩).2.changed
        = [] ∧
    (GitHub.storeSession [⟨"u1", "t1", "L1", "u1", []⟩] ⟨"u1", "t2", "L2", "u1", []⟩).2.added
        = [⟨"u1", "t2", "L2", "u1", []⟩] ∧
    (MiraiId.storeSession [⟨"u1", "t1", "L1", "u1", []⟩] ⟨"u1", "t2", "L2", "u1", []⟩).1.countP
        (fun x => x.id == "u1") = 2 := by
  decide

/-- C9 as amended: the GitHub provider replaces any stored session with
the same id — exactly one session with the stored id remains — but the
fired event always lists the new session under `added`, never under
`changed`; the Mirai provider appends the new session unconditionally
(so a duplicate id is not removed) and also fires `added`. -/
theorem c9_amended_upsert_fires_added :
    (∀ (stored : List Session) (s : Session),
      (GitHub.storeSession stored s).1.countP (fun x => x.id == s.id) = 1 ∧
      (GitHub.storeSession stored s).2 = ⟨[s], [], []⟩) ∧
    (∀ (stored : List Session) (s : Session),
      MiraiId.storeSession stored s = (stored ++ [s], ⟨[s], [], []⟩)) := by
  refine ⟨fun stored s => ⟨?_, rfl⟩, fun stored s => rfl⟩
  unfold GitHub.storeSession
  rw [List.countP_append]
  have h1 : (stored.filter (fun x => x.id ≠ s.id)).countP (fun x => x.id == s.id) = 0 := by
    rw [List.countP_eq_zero]
    intro a ha
    rw [List.mem_filter] at ha
    have : a.id ≠ s.id := by simpa using ha.2
    simp [this]
  rw [h1]
  simp [List.countP_cons]

/-! ## Claim C10: the account label round trip

Lemmas about decimal rendering, the credits regex, and the split. -/

lemma isDigitChar_digitChar (n : Nat) (h : n < 10) :
    isDigitChar (Nat.digitChar n) = true := by
  interval_cases n <;> decide

lemma digitVal_digitChar (n : Nat) (h : n < 10) :
    digitVal (Nat.digitChar n) = n := by
  interval_cases n <;> decide

lemma foldl_parse_natDigitsFuel :
    ∀ (fuel n : Nat) (acc : List Char) (a : Nat), n < fuel →
      ∃ k, 0 < k ∧
        (natDigitsFuel fuel n acc).foldl (fun x c => x * 10 + digitVal c) a =
          acc.foldl (fun x c => x * 10 + digitVal c) (a * 10 ^ k + n) := by
  intro fuel
  induction fuel with
  | zero => intro n acc a h; exact absurd h (Nat.not_lt_zero n)
  | succ fuel ih =>
    intro n acc a h
    unfold natDigitsFuel
    by_cases h10 : n < 10
    · rw [if_pos h10]
      refine ⟨1, Nat.one_pos, ?_⟩
      rw [List.foldl_cons, digitVal_digitChar n h10]
      norm_num
    · rw [if_neg h10]
      have hlt : n / 10 < fuel := by omega
      obtain ⟨k, hk, heq⟩ := ih (n / 10) (Nat.digitChar (n % 10) :: acc) a hlt
      rw [heq, List.foldl_cons, digitVal_digitChar (n % 10) (by omega)]
      refine ⟨k + 1, by omega, ?_⟩
      congr 1
      rw [pow_succ]
      have hexp : (a * 10 ^ k + n / 10) * 10 + n % 10 =
          a * (10 ^ k * 10) + (n / 10 * 10 + n % 10) := by ring
      rw [hexp]
      congr 1
      omega

lemma parseDec_natDigits (n : Nat) : parseDec (natDigits n) = n := by
  obtain ⟨k, _, h⟩ := foldl_parse_natDigitsFuel (n + 1) n [] 0 (Nat.lt_succ_self n)
  unfold parseDec natDigits
  rw [h]
  simp

lemma natDigitsFuel_all_digit :
    ∀ (fuel n : Nat) (acc : List Char), (∀ c ∈ acc, isDigitChar c = true) →
      ∀ c ∈ natDigitsFuel fuel n acc, isDigitChar c = true := by
  intro fuel
  induction fuel with
  | zero => intro n acc hacc; exact hacc
  | succ fuel ih =>
    intro n acc hacc c hc
    unfold natDigitsFuel at hc
    by_cases h10 : n < 10
    · rw [if_pos h10] at hc
      rcases List.mem_cons.mp hc with h | h
      · rw [h]; exact isDigitChar_digitChar n h10
      · exact hacc c h
    · rw [if_neg h10] at hc
      refine ih (n / 10) _ ?_ c hc
      intro x hx
      rcases List.mem_cons.mp hx with h | h
      · rw [h]; exact isDigitChar_digitChar (n % 10) (by omega)
      · exact hacc x h

lemma natDigits_all_digit (n : Nat) : ∀ c ∈ natDigits n, isDigitChar c = true :=
  natDigitsFuel_all_digit (n + 1) n [] (by intro c hc; exact absurd hc (List.not_mem_nil c))

lemma natDigitsFuel_ne_nil :
    ∀ (fuel n : Nat) (acc : List Char), n < fuel → natDigitsFuel fuel n acc ≠ [] := by
  intro fuel
  induction fuel with
  | zero => intro n acc h; exact absurd h (Nat.not_lt_zero n)
  | succ fuel ih =>
    intro n acc h
    unfold natDigitsFuel
    by_cases h10 : n < 10
    · rw [if_pos h10]; exact List.cons_ne_nil _ _
    · rw [if_neg h10]
      exact ih (n / 10) _ (by omega)

lemma natDigits_ne_nil (n : Nat) : natDigits n ≠ [] :=
  natDigitsFuel_ne_nil (n + 1) n [] (Nat.lt_succ_self n)

lemma takeWhile_append_all (p : Char → Bool) (l₁ l₂ : List Char)
    (h : ∀ c ∈ l₁, p c = true) :
    (l₁ ++ l₂).takeWhile p = l₁ ++ l₂.takeWhile p := by
  induction l₁ with
  | nil => rfl
  | cons c l ih =>
    rw [List.cons_append, List.takeWhile_cons,
      if_pos (h c (List.mem_cons_self c l)), ih (fun x hx => h x (List.mem_cons_of_mem c hx))]
    rfl

lemma dropWhile_append_all (p : Char → Bool) (l₁ l₂ : List Char)
    (h : ∀ c ∈ l₁, p c = true) :
    (l₁ ++ l₂).dropWhile p = l₂.dropWhile p := by
  induction l₁ with
  | nil => rfl
  | cons c l ih =>
    rw [List.cons_append, List.dropWhile_cons,
      if_pos (h c (List.mem_cons_self c l))]
    exact ih (fun x hx => h x (List.mem_cons_of_mem c hx))

lemma GlobalAuth.matchCreditsAt_digits (ds : List Char) (hne : ds ≠ [])
    (hd : ∀ c ∈ ds, isDigitChar c = true) :
    GlobalAuth.matchCreditsAt ('(' :: (ds ++ (' ' :: "credits)".data))) = some ds := by
  simp only [GlobalAuth.matchCreditsAt]
  rw [if_pos trivial]
  rw [takeWhile_append_all isDigitChar ds _ hd,
    dropWhile_append_all isDigitChar ds _ hd]
  rw [show List.takeWhile isDigitChar [' ', 'c', 'r', 'e', 'd', 'i', 't', 's', ')'] = []
    from rfl]
  rw [List.append_nil, if_neg hne]
  rfl

lemma GlobalAuth.findCredits_append_no_paren :
    ∀ (l r : List Char), (∀ c ∈ l, c ≠ '(') →
      GlobalAuth.findCredits (l ++ r) = GlobalAuth.findCredits r := by
  intro l
  induction l with
  | nil => intro r _; rfl
  | cons c l ih =>
    intro r h
    have hc : c ≠ '(' := h c (List.mem_cons_self c l)
    have hnone : GlobalAuth.matchCreditsAt (c :: (l ++ r)) = none := by
      simp only [GlobalAuth.matchCreditsAt]
      rw [if_neg hc]
    rw [List.cons_append]
    simp only [GlobalAuth.findCredits]
    rw [hnone]
    exact ih r (fun x hx => h x (List.mem_cons_of_mem c hx))

lemma GlobalAuth.findCredits_cons_found (c : Char) (rest ds : List Char)
    (h : GlobalAuth.matchCreditsAt (c :: rest) = some ds) :
    GlobalAuth.findCredits (c :: rest) = some ds := by
  simp only [GlobalAuth.findCredits]
  rw [h]

lemma takeBefore_append (l : List Char) (tail : List Char) (h : '(' ∉ l) :
    GlobalAuth.takeBeforeSpaceParen (l ++ ' ' :: '(' :: tail) = l := by
  induction l with
  | nil => simp [GlobalAuth.takeBeforeSpaceParen]
  | cons c l ih =>
    have hc : c ≠ '(' := fun he => h (he ▸ List.mem_cons_self c l)
    cases l with
    | nil =>
      show GlobalAuth.takeBeforeSpaceParen (c :: ' ' :: '(' :: tail) = [c]
      unfold GlobalAuth.takeBeforeSpaceParen
      rw [if_neg (by rintro ⟨_, h2⟩; exact absurd h2 (by decide))]
      simp [GlobalAuth.takeBeforeSpaceParen]
    | cons d l2 =>
      have hd : d ≠ '(' := fun he => h (he ▸ by simp)
      show GlobalAuth.takeBeforeSpaceParen (c :: d :: (l2 ++ ' ' :: '(' :: tail)) =
        c :: d :: l2
      unfold GlobalAuth.takeBeforeSpaceParen
      rw [if_neg (by rintro ⟨_, h2⟩; exact hd h2)]
      have hnotmem : '(' ∉ d :: l2 := fun hm => h (List.mem_cons_of_mem c hm)
      rw [show GlobalAuth.takeBeforeSpaceParen (d :: (l2 ++ ' ' :: '(' :: tail)) =
          d :: l2 from ih hnotmem]

lemma mkAccountLabel_data (n : String) (c : Nat) :
    (MiraiId.mkAccountLabel n c).data =
      n.data ++ (' ' :: '(' :: (natDigits c ++ (' ' :: "credits)".data))) := by
  unfold MiraiId.mkAccountLabel natToString
  rw [String.data_append, String.data_append, String.data_append]
  rw [show (String.mk (natDigits c)).data = natDigits c from rfl]
  rw [show (" (" : String).data = [' ', '('] from rfl]
  rw [show (" credits)" : String).data = ' ' :: "credits)".data from rfl]
  simp [List.append_assoc]

/-- C10 counterexample. The claim quantifies over every name not
containing the substring of a space followed by an opening parenthesis.
The name consisting of a credits-like parenthetical followed by a word
satisfies that hypothesis, yet the leftmost-match regex of
`extractCreditsFromLabel` picks the parenthetical inside the name
rather than the one appended by the label construction: the credits
value 7 comes back as 5. -/
theorem c10_counterexample :
    hasSubSeq "(5 credits) Bob".data " (".data = false ∧
    GlobalAuth.nameFromLabel (MiraiId.mkAccountLabel "(5 credits) Bob" 7) =
      "(5 credits) Bob" ∧
    GlobalAuth.extractCreditsFromLabel (MiraiId.mkAccountLabel "(5 credits) Bob" 7) =
      5 ∧
    (5 : Nat) ≠ 7 := by
  decide

/-- C10 as amended: for every user name that contains no opening
parenthesis at all and every credit count, the session label built by
`createSession` is the name followed by the parenthesised credit count,
and `refreshAuthState` recovers exactly the name (by splitting) and the
credit count (by the credits regex): the extraction inverts the label
construction on this domain. -/
theorem c10_amended_label_roundtrip :
    ∀ (n : String) (c : Nat), '(' ∉ n.data →
      (∀ (u : MiraiId.User) (tok : String) (sc : List String),
        (MiraiId.sessionFromExchange u tok sc).accountLabel =
          MiraiId.mkAccountLabel u.name u.credits) ∧
      GlobalAuth.nameFromLabel (MiraiId.mkAccountLabel n c) = n ∧
      GlobalAuth.extractCreditsFromLabel (MiraiId.mkAccountLabel n c) = c := by
  intro n c h
  refine ⟨fun u tok sc => rfl, ?_, ?_⟩
  · unfold GlobalAuth.nameFromLabel
    rw [mkAccountLabel_data n c, takeBefore_append n.data _ h]
  · unfold GlobalAuth.extractCreditsFromLabel
    rw [mkAccountLabel_data n c]
    have hassoc : n.data ++ (' ' :: '(' :: (natDigits c ++ (' ' :: "credits)".data))) =
        (n.data ++ [' ']) ++ ('(' :: (natDigits c ++ (' ' :: "credits)".data))) := by
      simp
    rw [hassoc]
    rw [GlobalAuth.findCredits_append_no_paren (n.data ++ [' ']) _ (by
      intro x hx
      rcases List.mem_append.mp hx with hx | hx
      · exact fun he => h (he ▸ hx)
      · intro he
        rw [List.mem_singleton] at hx
        rw [hx] at he
        exact absurd he (by decide))]
    rw [GlobalAuth.findCredits_cons_found '(' _ (natDigits c)
      (GlobalAuth.matchCreditsAt_digits (natDigits c) (natDigits_ne_nil c) (natDigits_all_digit c))]
    exact parseDec_natDigits c

/-- C10 witness: the amended statement at a concrete parenthesis-free
name and credit count. -/
theorem c10_witness :
    ('(' ∉ ("Alice" : String).data) ∧
    GlobalAuth.extractCreditsFromLabel (MiraiId.mkAccountLabel "Alice" 42) = 42 :=
  ⟨by decide, (c10_amended_label_roundtrip "Alice" 42 (by decide)).2.2⟩

end Mirai
